import Mathlib

/-!
Shallow embedding of `pyscf/prop/magnetizability/uhf.py`: the non-relativistic
magnetizability tensor for UHF references.

The module under study is a thin composition layer: all heavy numerics
(`rhf_mag._get_dia_1e`, `jk.get_jk`, `uhf_nmr.solve_mo1`, the Fock and overlap
builders) live in sibling modules of the library and are modelled here as
uninterpreted function parameters, collected in `Ext` (module-level imports)
and as fields of `MagObj` (attributes of the magnetizability object).
Numerical arrays are total functions over `Fin` index types with rational
entries; the occupied-orbital slices `mo_coeff[:, mo_occ > 0]` become
functions indexed by the subtype `OccIdx` of orbitals with positive
occupation.
-/

namespace PyscfMag

/-- Token standing for a `pyscf.gto.Mole` object; the module only forwards it
to the external integral routines, so its content is irrelevant here. -/
structure Mole where
  id : ℕ
deriving DecidableEq

/-- A gauge origin, a triple of coordinates (e.g. `(0,0,1)` in the self-test).
The module only forwards it. -/
structure Gauge where
  gx : ℚ
  gy : ℚ
  gz : ℚ
deriving DecidableEq

/-- A square AO-basis matrix of dimension `n`. -/
abbrev Mat (n : ℕ) : Type := Fin n → Fin n → ℚ

/-- The converged SCF data read off `magobj._scf`: per-spin orbital energies,
orbital coefficients and occupation numbers (spin index `0` = alpha,
`1` = beta). -/
structure SCFResult (n : ℕ) where
  mo_energy : Fin 2 → Fin n → ℚ
  mo_coeff : Fin 2 → Fin n → Fin n → ℚ
  mo_occ : Fin 2 → Fin n → ℚ

/-- Indices of occupied orbitals of spin `σ`: the columns selected by
`mo_occ[σ] > 0` in the Python source. -/
abbrev OccIdx {n : ℕ} (scf : SCFResult n) (σ : Fin 2) : Type :=
  {i : Fin n // 0 < scf.mo_occ σ i}

/-- `orboa` / `orbob` in the source: `mo_coeff[σ][:, mo_occ[σ] > 0]`, the
occupied-orbital coefficient block of spin `σ`. -/
def orbo {n : ℕ} (scf : SCFResult n) (σ : Fin 2) : Fin n → OccIdx scf σ → ℚ :=
  fun p i => scf.mo_coeff σ p i.val

/-- `dm0a = numpy.dot(orboa, orboa.T)`: the alpha zeroth-order density. -/
def dm0a {n : ℕ} (scf : SCFResult n) : Mat n :=
  fun p q => ∑ i : OccIdx scf 0, orbo scf 0 p i * orbo scf 0 q i

/-- `dm0b = numpy.dot(orbob, orbob.T)`: the beta zeroth-order density. -/
def dm0b {n : ℕ} (scf : SCFResult n) : Mat n :=
  fun p q => ∑ i : OccIdx scf 1, orbo scf 1 p i * orbo scf 1 q i

/-- `dm0 = dm0a + dm0b`: the spin-summed zeroth-order density. -/
def dm0 {n : ℕ} (scf : SCFResult n) : Mat n :=
  fun p q => dm0a scf p q + dm0b scf p q

/-- `dme0a = numpy.dot(orboa * mo_energy[0][mo_occ[0] > 0], orboa.T)`. -/
def dme0a {n : ℕ} (scf : SCFResult n) : Mat n :=
  fun p q => ∑ i : OccIdx scf 0,
    orbo scf 0 p i * scf.mo_energy 0 i.val * orbo scf 0 q i

/-- `dme0b = numpy.dot(orbob * mo_energy[1][mo_occ[1] > 0], orbob.T)`. -/
def dme0b {n : ℕ} (scf : SCFResult n) : Mat n :=
  fun p q => ∑ i : OccIdx scf 1,
    orbo scf 1 p i * scf.mo_energy 1 i.val * orbo scf 1 q i

/-- `dme0 = dme0a + dme0b`: the spin-summed energy-weighted density. -/
def dme0 {n : ℕ} (scf : SCFResult n) : Mat n :=
  fun p q => dme0a scf p q + dme0b scf p q

/-- The per-spin density pair `dm0 = (dot(orboa,orboa.T), dot(orbob,orbob.T))`
rebuilt inside `para` (line 104) and fed to `magobj.get_fock`. -/
def dm0pair {n : ℕ} (scf : SCFResult n) : Fin 2 → Mat n :=
  fun σ p q => ∑ i : OccIdx scf σ, orbo scf σ p i * orbo scf σ q i

/-- The Python `with_cphf` values: `None`, a boolean, or a callable
`dm_mo => v1_mo` producing the induced potential. -/
inductive CphfArg (n : ℕ) : Type where
  | pynone : CphfArg n
  | pybool : Bool → CphfArg n
  | pyfn : ((Fin 2 → Mat n) → (Fin 2 → Mat n)) → CphfArg n

/-- Shape family of `h1`, `s1` and `mo1`: per spin `σ` a `(3, nmo, nocc_σ)`
array (field component, all orbitals, occupied orbitals). -/
abbrev MOPert {n : ℕ} (scf : SCFResult n) : Type :=
  (σ : Fin 2) → Fin 3 → Fin n → OccIdx scf σ → ℚ

/-- Shape family of `mo_e1`: per spin `σ` a `(3, nocc_σ, nocc_σ)` array. -/
abbrev MOE1 {n : ℕ} (scf : SCFResult n) : Type :=
  (σ : Fin 2) → Fin 3 → OccIdx scf σ → OccIdx scf σ → ℚ

/-- The magnetizability object: its molecule, its converged SCF reference
`_scf`, the `cphf` attribute, the logger configuration (`stdout`, `verbose`),
and its perturbed-Fock / perturbed-overlap builder attributes. -/
structure MagObj (n : ℕ) where
  mol : Mole
  scf : SCFResult n
  cphf : CphfArg n
  stdout : ℕ
  verbose : ℕ
  get_fock : (Fin 2 → Mat n) → Option Gauge → (Fin 2 → Fin 3 → Mat n)
  get_ovlp : Mole → Option Gauge → (Fin 3 → Mat n)

/-- The external library routines imported by the module, as uninterpreted
functions: `rhf_mag._get_dia_1e` (a `(3,3)` one-electron diamagnetic term),
`jk.get_jk` (a list of `(comp, nao, nao)` contracted integral-derivative
arrays, modelled as an index-to-array family), `uhf_nmr.solve_mo1` (the
shared NMR CPHF solver) and `uhf_nmr.get_fock` (the Fock-builder delegate
installed on the `Magnetizability` class). -/
structure Ext (n : ℕ) where
  get_dia_1e : MagObj n → Option Gauge → Mat n → Mat n → Fin 3 → Fin 3 → ℚ
  get_jk : Mole → List (Mat n) → List String → String → String → ℕ → ℕ →
    (ℕ → Fin 9 → Mat n)
  solve_mo1 : MagObj n → (scf : SCFResult n) → MOPert scf → MOPert scf →
    CphfArg n → MOPert scf × MOE1 scf
  uhf_nmr_get_fock : (Fin 2 → Mat n) → Option Gauge → (Fin 2 → Fin 3 → Mat n)

/-- The contraction script strings passed to `jk.get_jk`. -/
def script_s2kl : String := "ijkl,ji->s2kl"

/-- Exchange-type script `'ijkl,jk->s1il'`. -/
def script_s1il : String := "ijkl,jk->s1il"

/-- Exchange-type script `'ijkl,li->s1kj'`. -/
def script_s1kj : String := "ijkl,li->s1kj"

/-- Integral name `'int2e_gg1'`. -/
def intor_gg1 : String := "int2e_gg1"

/-- Integral name `'int2e_g1g2'`. -/
def intor_g1g2 : String := "int2e_g1g2"

/-- AO symmetry tag `'s4'`. -/
def sym_s4 : String := "s4"

/-- AO symmetry tag `'aa4'`. -/
def sym_aa4 : String := "aa4"

/-- `numpy.ndarray.ravel` on a `(3,3)` array: row-major flattening. -/
def ravel3 (f : Fin 3 → Fin 3 → ℚ) : Fin 9 → ℚ :=
  fun k => f ⟨k.val / 3, by have := k.isLt; omega⟩ ⟨k.val % 3, by omega⟩

/-- The row-major index of entry `(x, y)` in a flattened `(3,3)` array,
as used by `e2.reshape(3,3)`. -/
def idx9 (x y : Fin 3) : Fin 9 :=
  ⟨3 * x.val + y.val, by have := x.isLt; have := y.isLt; omega⟩

/-- `numpy.einsum('xpq,qp->x', v, d)`. -/
def contractXqp {n : ℕ} (v : Fin 9 → Mat n) (d : Mat n) : Fin 9 → ℚ :=
  fun x => ∑ p, ∑ q, v x p q * d q p

/-- The first `jk.get_jk` call of `dia` (densities
`[dm0, dm0a, dm0a, dm0b, dm0b]`, integral `int2e_gg1`, symmetry `s4`,
9 components, `hermi=1`). -/
def dia_vs {n : ℕ} (ext : Ext n) (mag : MagObj n) : ℕ → Fin 9 → Mat n :=
  ext.get_jk mag.mol
    [dm0 mag.scf, dm0a mag.scf, dm0a mag.scf, dm0b mag.scf, dm0b mag.scf]
    [script_s2kl, script_s1il, script_s1kj, script_s1il, script_s1kj]
    intor_gg1 sym_s4 9 1

/-- The second `jk.get_jk` call of `dia` (densities `[dm0a, dm0b]`, integral
`int2e_g1g2`, symmetry `aa4`, 9 components, `hermi=0`). -/
def dia_vk {n : ℕ} (ext : Ext n) (mag : MagObj n) : ℕ → Fin 9 → Mat n :=
  ext.get_jk mag.mol [dm0a mag.scf, dm0b mag.scf] [script_s1il, script_s1il]
    intor_g1g2 sym_aa4 9 0

/-- The flattened accumulator `e2` of `dia`: the raveled one-electron term
`rhf_mag._get_dia_1e(magobj, gauge_orig, dm0, dme0)`, plus — only when
`gauge_orig is None` — the two-electron `int2e_gg1` and `int2e_g1g2`
contractions. -/
def dia_e2 {n : ℕ} (ext : Ext n) (mag : MagObj n) (g : Option Gauge) :
    Fin 9 → ℚ :=
  fun k =>
    ravel3 (ext.get_dia_1e mag g (dm0 mag.scf) (dme0 mag.scf)) k +
    (if g = none then
      contractXqp (dia_vs ext mag 0) (dm0 mag.scf) k
      - contractXqp (dia_vs ext mag 1) (dm0a mag.scf) k * (1/2)
      - contractXqp (dia_vs ext mag 2) (dm0a mag.scf) k * (1/2)
      - contractXqp (dia_vs ext mag 3) (dm0b mag.scf) k * (1/2)
      - contractXqp (dia_vs ext mag 4) (dm0b mag.scf) k * (1/2)
      - contractXqp (dia_vk ext mag 0) (dm0a mag.scf) k
      - contractXqp (dia_vk ext mag 1) (dm0b mag.scf) k
    else 0)

/-- `dia(magobj, gauge_orig)`: the diamagnetic susceptibility tensor,
`-e2.reshape(3,3)`. -/
def dia {n : ℕ} (ext : Ext n) (mag : MagObj n) (g : Option Gauge) :
    Fin 3 → Fin 3 → ℚ :=
  fun x y => -(dia_e2 ext mag g (idx9 x y))

/-- The first-order Fock matrices `h1` used by `para` (lines 102-108): the
caller-supplied value when given, otherwise for each spin the AO perturbation
`magobj.get_fock(dm0, gauge_orig)` transformed to the MO basis by
`einsum('xpq,pi,qj->xij', h1[σ], mo_coeff[σ].conj(), orbo[σ])`. -/
def para_h1 {n : ℕ} (mag : MagObj n) (g : Option Gauge)
    (h1 : Option (MOPert mag.scf)) : MOPert mag.scf :=
  match h1 with
  | some h1 => h1
  | none =>
    let h1ao := mag.get_fock (dm0pair mag.scf) g
    fun σ x i j => ∑ p, ∑ q,
      h1ao σ x p q * star (mag.scf.mo_coeff σ p i) * orbo mag.scf σ q j

/-- The first-order overlap matrices `s1` used by `para` (lines 109-113): the
caller-supplied value when given, otherwise the AO perturbation
`magobj.get_ovlp(mol, gauge_orig)` transformed to the MO basis by
`einsum('xpq,pi,qj->xij', s1, mo_coeff[σ].conj(), orbo[σ])` for each spin. -/
def para_s1 {n : ℕ} (mag : MagObj n) (g : Option Gauge)
    (s1 : Option (MOPert mag.scf)) : MOPert mag.scf :=
  match s1 with
  | some s1 => s1
  | none =>
    let s1ao := mag.get_ovlp mag.mol g
    fun σ x i j => ∑ p, ∑ q,
      s1ao x p q * star (mag.scf.mo_coeff σ p i) * orbo mag.scf σ q j

/-- The paramagnetic contraction of `para` (lines 120-130): the
`'yji,xji->xy'` contractions of `mo1` with `h1`, minus the
`'yji,xji,i->xy'` contractions of `mo1`, `s1` and the occupied orbital
energies, symmetrized by adding the complex conjugate, minus the
`'xij,yij->xy'` contractions of the occupied rows of `s1` with `mo_e1`. -/
def mag_para_contract {n : ℕ} (scf : SCFResult n)
    (h1 s1 mo1 : MOPert scf) (mo_e1 : MOE1 scf) : Fin 3 → Fin 3 → ℚ :=
  fun x y =>
    let m0 : ℚ :=
      (∑ j, ∑ i, mo1 0 y j i * h1 0 x j i)
      + (∑ j, ∑ i, mo1 1 y j i * h1 1 x j i)
      - (∑ j, ∑ i, mo1 0 y j i * s1 0 x j i * scf.mo_energy 0 i.val)
      - (∑ j, ∑ i, mo1 1 y j i * s1 1 x j i * scf.mo_energy 1 i.val)
    (m0 + star m0)
      - (∑ i : OccIdx scf 0, ∑ j, s1 0 x i.val j * mo_e1 0 y i j)
      - (∑ i : OccIdx scf 1, ∑ j, s1 1 x i.val j * mo_e1 1 y i j)

/-- `para(magobj, gauge_orig, h1, s1, with_cphf)`: the paramagnetic
susceptibility tensor.  Note that line 115 of the source overwrites the
`with_cphf` argument with `magobj.cphf` before `uhf_nmr.solve_mo1` is
called. -/
def para {n : ℕ} (ext : Ext n) (mag : MagObj n) (g : Option Gauge)
    (h1 s1 : Option (MOPert mag.scf)) (with_cphf : CphfArg n) :
    Fin 3 → Fin 3 → ℚ :=
  let h1r := para_h1 mag g h1
  let s1r := para_s1 mag g s1
  let mo1e1 := ext.solve_mo1 mag mag.scf h1r s1r mag.cphf
  fun x y => -(mag_para_contract mag.scf h1r s1r mo1e1.1 mo1e1.2 x y)

/-- Modelled from the spec: the restricted-HF magnetizability driver class
`rhf_mag.Magnetizability` lives in the sibling module `rhf.py`, which is not
part of this repository slice.  Only its method slots are modelled: the
`dia`, `para` and `get_fock` attributes that the UHF subclass overrides, and
a `kernel` slot standing for the caller-side driver it provides. -/
structure RhfMagnetizabilityClass (n : ℕ) where
  dia : MagObj n → Option Gauge → Fin 3 → Fin 3 → ℚ
  para : (mag : MagObj n) → Option Gauge → Option (MOPert mag.scf) →
    Option (MOPert mag.scf) → CphfArg n → Fin 3 → Fin 3 → ℚ
  get_fock : (Fin 2 → Mat n) → Option Gauge → (Fin 2 → Fin 3 → Mat n)
  kernel : MagObj n → Fin 3 → Fin 3 → ℚ

/-- `class Magnetizability(rhf_mag.Magnetizability)` (lines 134-137): the
UHF class is the restricted-HF class with the `dia`, `para` and `get_fock`
attributes overridden (`get_fock = uhf_nmr.get_fock`); everything else, in
particular `kernel`, is inherited unchanged. -/
def Magnetizability {n : ℕ} (ext : Ext n) (base : RhfMagnetizabilityClass n) :
    RhfMagnetizabilityClass n :=
  { base with
    dia := dia ext
    para := para ext
    get_fock := ext.uhf_nmr_get_fock }

/-- The magnetizability object with fallible attribute calls: identical to
`MagObj` except that `get_fock` and `get_ovlp` may raise, modelling Python
exceptions escaping from the external builders. -/
structure MagObjE (ε : Type) (n : ℕ) where
  mol : Mole
  scf : SCFResult n
  cphf : CphfArg n
  stdout : ℕ
  verbose : ℕ
  get_fock : (Fin 2 → Mat n) → Option Gauge → Except ε (Fin 2 → Fin 3 → Mat n)
  get_ovlp : Mole → Option Gauge → Except ε (Fin 3 → Mat n)

/-- The external routines with fallible calls: identical to `Ext` except that
each routine may raise. -/
structure ExtE (ε : Type) (n : ℕ) where
  get_dia_1e : MagObjE ε n → Option Gauge → Mat n → Mat n →
    Except ε (Fin 3 → Fin 3 → ℚ)
  get_jk : Mole → List (Mat n) → List String → String → String → ℕ → ℕ →
    Except ε (ℕ → Fin 9 → Mat n)
  solve_mo1 : MagObjE ε n → (scf : SCFResult n) → MOPert scf → MOPert scf →
    CphfArg n → Except ε (MOPert scf × MOE1 scf)

/-- `dia` transcribed with fallible external calls, in source order: first
`rhf_mag._get_dia_1e`, then (only when `gauge_orig is None`) the two
`jk.get_jk` calls.  `dia` contains no `try`/`except`, so any exception
aborts the call and propagates. -/
def diaE {ε : Type} {n : ℕ} (ext : ExtE ε n) (mag : MagObjE ε n)
    (g : Option Gauge) : Except ε (Fin 3 → Fin 3 → ℚ) := do
  let t1e ← ext.get_dia_1e mag g (dm0 mag.scf) (dme0 mag.scf)
  if g = none then
    let vs ← ext.get_jk mag.mol
      [dm0 mag.scf, dm0a mag.scf, dm0a mag.scf, dm0b mag.scf, dm0b mag.scf]
      [script_s2kl, script_s1il, script_s1kj, script_s1il, script_s1kj]
      intor_gg1 sym_s4 9 1
    let vk ← ext.get_jk mag.mol [dm0a mag.scf, dm0b mag.scf]
      [script_s1il, script_s1il] intor_g1g2 sym_aa4 9 0
    let e2 : Fin 9 → ℚ := fun k =>
      ravel3 t1e k
      + contractXqp (vs 0) (dm0 mag.scf) k
      - contractXqp (vs 1) (dm0a mag.scf) k * (1/2)
      - contractXqp (vs 2) (dm0a mag.scf) k * (1/2)
      - contractXqp (vs 3) (dm0b mag.scf) k * (1/2)
      - contractXqp (vs 4) (dm0b mag.scf) k * (1/2)
      - contractXqp (vk 0) (dm0a mag.scf) k
      - contractXqp (vk 1) (dm0b mag.scf) k
    pure (fun x y => -(e2 (idx9 x y)))
  else
    pure (fun x y => -(ravel3 t1e (idx9 x y)))

/-- `para` transcribed with fallible external calls, in source order:
`magobj.get_fock` (when `h1 is None`), then `magobj.get_ovlp` (when
`s1 is None`), then `uhf_nmr.solve_mo1`.  `para` contains no `try`/`except`,
so any exception aborts the call and propagates. -/
def paraE {ε : Type} {n : ℕ} (ext : ExtE ε n) (mag : MagObjE ε n)
    (g : Option Gauge) (h1 s1 : Option (MOPert mag.scf))
    (with_cphf : CphfArg n) : Except ε (Fin 3 → Fin 3 → ℚ) := do
  let h1r ← match h1 with
    | some h1 => pure h1
    | none => do
      let h1ao ← mag.get_fock (dm0pair mag.scf) g
      pure (fun σ x i j => ∑ p, ∑ q,
        h1ao σ x p q * star (mag.scf.mo_coeff σ p i) * orbo mag.scf σ q j)
  let s1r ← match s1 with
    | some s1 => pure s1
    | none => do
      let s1ao ← mag.get_ovlp mag.mol g
      pure (fun σ x i j => ∑ p, ∑ q,
        s1ao x p q * star (mag.scf.mo_coeff σ p i) * orbo mag.scf σ q j)
  let mo1e1 ← ext.solve_mo1 mag mag.scf h1r s1r mag.cphf
  pure (fun x y => -(mag_para_contract mag.scf h1r s1r mo1e1.1 mo1e1.2 x y))

/-- Row-major raveling followed by indexing at the row-major index `(x,y)`
recovers the `(x,y)` entry: `f.ravel().reshape(3,3) = f`. -/
theorem ravel3_idx9 (f : Fin 3 → Fin 3 → ℚ) (x y : Fin 3) :
    ravel3 f (idx9 x y) = f x y := by
  have hx : (idx9 x y).val / 3 = x.val := by
    have := x.isLt; have := y.isLt; simp only [idx9]; omega
  have hy : (idx9 x y).val % 3 = y.val := by
    have := x.isLt; have := y.isLt; simp only [idx9]; omega
  simp only [ravel3]
  congr 1
  · exact Fin.ext hx
  · exact Fin.ext hy

/-- Claim C1: for every magnetizability object with a UHF reference, `dia`
returns the `(3,3)` array obtained by negating the 9-component accumulator
`e2` reshaped row-major to `(3,3)`, and `para` returns the negation of the
`(3,3)` tensor built from `mo1`, `h1`, `s1` and `mo_e1` by the
`'yji,xji->xy'`-style contractions (plus the conjugate, minus the
`'xij,yij->xy'` contraction of the occupied rows of `s1` with `mo_e1`). -/
theorem mag_c1 {n : ℕ} (ext : Ext n) (mag : MagObj n) (g : Option Gauge)
    (h1 s1 : Option (MOPert mag.scf)) (w : CphfArg n) :
    (∀ x y, dia ext mag g x y = -(dia_e2 ext mag g (idx9 x y))) ∧
    (∀ x y, para ext mag g h1 s1 w x y =
      -(let h1r := para_h1 mag g h1
        let s1r := para_s1 mag g s1
        let mo1 := (ext.solve_mo1 mag mag.scf h1r s1r mag.cphf).1
        let mo_e1 := (ext.solve_mo1 mag mag.scf h1r s1r mag.cphf).2
        let m0 := (∑ j, ∑ i, mo1 0 y j i * h1r 0 x j i)
          + (∑ j, ∑ i, mo1 1 y j i * h1r 1 x j i)
          - (∑ j, ∑ i, mo1 0 y j i * s1r 0 x j i * mag.scf.mo_energy 0 i.val)
          - (∑ j, ∑ i, mo1 1 y j i * s1r 1 x j i * mag.scf.mo_energy 1 i.val)
        (m0 + star m0)
          - (∑ i : OccIdx mag.scf 0, ∑ j, s1r 0 x i.val j * mo_e1 0 y i j)
          - (∑ i : OccIdx mag.scf 1, ∑ j, s1r 1 x i.val j * mo_e1 1 y i j))) :=
  ⟨fun _ _ => rfl, fun _ _ => rfl⟩

/-- Claim C2: the first-order quantities entering the paramagnetic
contraction are exactly the pair returned by the shared NMR UHF solver
`uhf_nmr.solve_mo1` applied to the SCF data `(mo_energy, mo_coeff, mo_occ)`
together with the resolved `h1` and `s1` (and the object's `cphf` flag). -/
theorem mag_c2 {n : ℕ} (ext : Ext n) (mag : MagObj n) (g : Option Gauge)
    (h1 s1 : Option (MOPert mag.scf)) (w : CphfArg n) :
    para ext mag g h1 s1 w = fun x y =>
      -(mag_para_contract mag.scf (para_h1 mag g h1) (para_s1 mag g s1)
        (ext.solve_mo1 mag mag.scf (para_h1 mag g h1) (para_s1 mag g s1)
          mag.cphf).1
        (ext.solve_mo1 mag mag.scf (para_h1 mag g h1) (para_s1 mag g s1)
          mag.cphf).2 x y) :=
  rfl

/-- Claim C3: with `h1 = None` (resp. `s1 = None`), `para` runs on the
first-order Fock (resp. overlap) matrices assembled in the MO basis: for each
spin the AO perturbation from `magobj.get_fock` on the zeroth-order density
pair (resp. from `magobj.get_ovlp`) transformed as
`conj(mo_coeff)^T * M * orb_occ`, restricted to columns of positive
occupation. -/
theorem mag_c3 {n : ℕ} (ext : Ext n) (mag : MagObj n) (g : Option Gauge)
    (h1 s1 : Option (MOPert mag.scf)) (w : CphfArg n) :
    para ext mag g none s1 w =
      para ext mag g (some (para_h1 mag g none)) s1 w ∧
    (∀ σ x i j, para_h1 mag g none σ x i j =
      ∑ p, star (mag.scf.mo_coeff σ p i) *
        (∑ q, mag.get_fock (dm0pair mag.scf) g σ x p q *
          orbo mag.scf σ q j)) ∧
    para ext mag g h1 none w =
      para ext mag g h1 (some (para_s1 mag g none)) w ∧
    (∀ σ x i j, para_s1 mag g none σ x i j =
      ∑ p, star (mag.scf.mo_coeff σ p i) *
        (∑ q, mag.get_ovlp mag.mol g x p q * orbo mag.scf σ q j)) := by
  refine ⟨rfl, fun σ x i j => ?_, rfl, fun σ x i j => ?_⟩
  · simp only [para_h1, Finset.mul_sum]
    refine Finset.sum_congr rfl fun p _ => Finset.sum_congr rfl fun q _ => ?_
    ring
  · simp only [para_s1, Finset.mul_sum]
    refine Finset.sum_congr rfl fun p _ => Finset.sum_congr rfl fun q _ => ?_
    ring

/-- Claim C4: the `with_cphf` keyword of `para` is dead: line 115 overwrites
it with `magobj.cphf` before the response equations are solved, so the result
is the same for every value of the argument (`None`, boolean or callable),
and whether CPHF is solved is decided solely by the object's `cphf`
attribute. -/
theorem mag_c4 {n : ℕ} (ext : Ext n) (mag : MagObj n) (g : Option Gauge)
    (h1 s1 : Option (MOPert mag.scf)) (w w' : CphfArg n) :
    para ext mag g h1 s1 w = para ext mag g h1 s1 w' :=
  rfl

/-- Claim C5: the UHF `Magnetizability` class is the restricted-HF class
with only `dia`, `para` and `get_fock` overridden: its `get_fock` slot is
exactly `uhf_nmr.get_fock`, its inherited `kernel` is unchanged, and `dia`
obtains its one-electron term from `rhf_mag._get_dia_1e` applied to the
spin-summed densities `dm0a + dm0b` and `dme0a + dme0b`. -/
theorem mag_c5 {n : ℕ} (ext : Ext n) (base : RhfMagnetizabilityClass n) :
    (Magnetizability ext base).get_fock = ext.uhf_nmr_get_fock ∧
    (Magnetizability ext base).dia = dia ext ∧
    (Magnetizability ext base).para = para ext ∧
    (Magnetizability ext base).kernel = base.kernel ∧
    (∀ (mag : MagObj n) (g : Option Gauge) (x y : Fin 3),
      dia ext mag g x y =
        -(ext.get_dia_1e mag g
            (fun p q => dm0a mag.scf p q + dm0b mag.scf p q)
            (fun p q => dme0a mag.scf p q + dme0b mag.scf p q) x y
          + (if g = none then
              contractXqp (dia_vs ext mag 0) (dm0 mag.scf) (idx9 x y)
              - contractXqp (dia_vs ext mag 1) (dm0a mag.scf) (idx9 x y) * (1/2)
              - contractXqp (dia_vs ext mag 2) (dm0a mag.scf) (idx9 x y) * (1/2)
              - contractXqp (dia_vs ext mag 3) (dm0b mag.scf) (idx9 x y) * (1/2)
              - contractXqp (dia_vs ext mag 4) (dm0b mag.scf) (idx9 x y) * (1/2)
              - contractXqp (dia_vk ext mag 0) (dm0a mag.scf) (idx9 x y)
              - contractXqp (dia_vk ext mag 1) (dm0b mag.scf) (idx9 x y)
            else 0))) := by
  refine ⟨rfl, rfl, rfl, rfl, fun mag g x y => ?_⟩
  show -(dia_e2 ext mag g (idx9 x y)) = _
  rw [dia_e2, ravel3_idx9]
  rfl

/-- Claim C6: with an explicit gauge origin, `dia` skips the two-electron
`int2e_gg1` and `int2e_g1g2` contractions entirely and returns the negation
of the reshaped one-electron term `rhf_mag._get_dia_1e`; the two-electron
terms are added only when `gauge_orig` is `None`. -/
theorem mag_c6 {n : ℕ} (ext : Ext n) (mag : MagObj n) (g0 : Gauge) :
    (∀ x y, dia ext mag (some g0) x y =
      -(ext.get_dia_1e mag (some g0) (dm0 mag.scf) (dme0 mag.scf) x y)) ∧
    (∀ x y, dia ext mag none x y =
      -(ext.get_dia_1e mag none (dm0 mag.scf) (dme0 mag.scf) x y
        + (contractXqp (dia_vs ext mag 0) (dm0 mag.scf) (idx9 x y)
           - contractXqp (dia_vs ext mag 1) (dm0a mag.scf) (idx9 x y) * (1/2)
           - contractXqp (dia_vs ext mag 2) (dm0a mag.scf) (idx9 x y) * (1/2)
           - contractXqp (dia_vs ext mag 3) (dm0b mag.scf) (idx9 x y) * (1/2)
           - contractXqp (dia_vs ext mag 4) (dm0b mag.scf) (idx9 x y) * (1/2)
           - contractXqp (dia_vk ext mag 0) (dm0a mag.scf) (idx9 x y)
           - contractXqp (dia_vk ext mag 1) (dm0b mag.scf) (idx9 x y)))) := by
  constructor
  · intro x y
    show -(dia_e2 ext mag (some g0) (idx9 x y)) = _
    rw [dia_e2, ravel3_idx9]
    simp
  · intro x y
    show -(dia_e2 ext mag none (idx9 x y)) = _
    rw [dia_e2, ravel3_idx9]
    simp

/-- Claim C8: `dia` and `para` are deterministic and stateless: modelled as
functions of their explicit inputs they are pure, and provided the external
routines receiving the magnetizability object do not distinguish objects
that agree on all numerical fields, the logger configuration
(`stdout`, `verbose`) — the only further object state the module touches —
has no influence on the returned tensors. -/
theorem mag_c8 {n : ℕ} (ext : Ext n) (mol : Mole) (scf : SCFResult n)
    (cphf : CphfArg n)
    (gf : (Fin 2 → Mat n) → Option Gauge → (Fin 2 → Fin 3 → Mat n))
    (go : Mole → Option Gauge → (Fin 3 → Mat n))
    (s v s' v' : ℕ) (g : Option Gauge) (h1 s1 : Option (MOPert scf))
    (w : CphfArg n)
    (hdia1e : ∀ m m' : MagObj n, m.mol = m'.mol → m.scf = m'.scf →
      m.cphf = m'.cphf → m.get_fock = m'.get_fock → m.get_ovlp = m'.get_ovlp →
      ext.get_dia_1e m = ext.get_dia_1e m')
    (hsolve : ∀ m m' : MagObj n, m.mol = m'.mol → m.scf = m'.scf →
      m.cphf = m'.cphf → m.get_fock = m'.get_fock → m.get_ovlp = m'.get_ovlp →
      ext.solve_mo1 m = ext.solve_mo1 m') :
    dia ext ⟨mol, scf, cphf, s, v, gf, go⟩ g =
      dia ext ⟨mol, scf, cphf, s', v', gf, go⟩ g ∧
    para ext ⟨mol, scf, cphf, s, v, gf, go⟩ g h1 s1 w =
      para ext ⟨mol, scf, cphf, s', v', gf, go⟩ g h1 s1 w := by
  have h1e := hdia1e ⟨mol, scf, cphf, s, v, gf, go⟩
    ⟨mol, scf, cphf, s', v', gf, go⟩ rfl rfl rfl rfl rfl
  have hsv := hsolve ⟨mol, scf, cphf, s, v, gf, go⟩
    ⟨mol, scf, cphf, s', v', gf, go⟩ rfl rfl rfl rfl rfl
  constructor
  · funext x y
    simp only [dia, dia_e2, dia_vs, dia_vk]
    rw [h1e]
  · funext x y
    simp only [para]
    rw [hsv]
    cases h1 <;> cases s1 <;> rfl

/-- Claim C9: `dia` and `para` contain no error handling: in the fallible
transcription, a failure of `rhf_mag._get_dia_1e`, `jk.get_jk`,
`magobj.get_fock`, `magobj.get_ovlp` or `uhf_nmr.solve_mo1` makes the whole
call return exactly that failure (no partial result), and when the reached
external calls succeed the functions return a value, raising nothing of
their own. -/
theorem mag_c9 {ε : Type} {n : ℕ}
    (extF extO : ExtE ε n) (magF magO : MagObjE ε n)
    (g : Option Gauge) (g0 : Gauge)
    (h1c s1c : MOPert magF.scf) (h1o s1o : MOPert magO.scf)
    (w : CphfArg n) (e1 e2 e3 e4 e5 : ε)
    (t1 t2 : Fin 3 → Fin 3 → ℚ) (sol : MOPert magO.scf × MOE1 magO.scf)
    (ha : extF.get_dia_1e magF g (dm0 magF.scf) (dme0 magF.scf) =
      Except.error e1)
    (hb1 : extO.get_dia_1e magO none (dm0 magO.scf) (dme0 magO.scf) =
      Except.ok t1)
    (hb2 : extO.get_jk magO.mol
      [dm0 magO.scf, dm0a magO.scf, dm0a magO.scf, dm0b magO.scf,
        dm0b magO.scf]
      [script_s2kl, script_s1il, script_s1kj, script_s1il, script_s1kj]
      intor_gg1 sym_s4 9 1 = Except.error e2)
    (hc : magF.get_fock (dm0pair magF.scf) g = Except.error e3)
    (hd : magF.get_ovlp magF.mol g = Except.error e4)
    (he : extF.solve_mo1 magF magF.scf h1c s1c magF.cphf = Except.error e5)
    (hf1 : extO.get_dia_1e magO (some g0) (dm0 magO.scf) (dme0 magO.scf) =
      Except.ok t2)
    (hf2 : extO.solve_mo1 magO magO.scf h1o s1o magO.cphf = Except.ok sol) :
    diaE extF magF g = Except.error e1 ∧
    diaE extO magO none = Except.error e2 ∧
    paraE extF magF g none (some s1c) w = Except.error e3 ∧
    paraE extF magF g (some h1c) none w = Except.error e4 ∧
    paraE extF magF g (some h1c) (some s1c) w = Except.error e5 ∧
    diaE extO magO (some g0) =
      Except.ok (fun x y => -(ravel3 t2 (idx9 x y))) ∧
    paraE extO magO g (some h1o) (some s1o) w =
      Except.ok (fun x y =>
        -(mag_para_contract magO.scf h1o s1o sol.1 sol.2 x y)) := by
  refine ⟨?_, ?_, ?_, ?_, ?_, ?_, ?_⟩
  · simp only [diaE, ha]; rfl
  · simp only [diaE, hb1, hb2]; rfl
  · simp only [paraE, hc]; rfl
  · simp only [paraE, hd]; rfl
  · simp only [paraE, pure_bind, he]; rfl
  · simp only [diaE, hf1]; rfl
  · simp only [paraE, pure_bind, hf2]; rfl

/-- An SCF result on zero basis functions, for concrete instantiations. -/
def scf0 : SCFResult 0 :=
  { mo_energy := fun _ i => i.elim0
    mo_coeff := fun _ i => i.elim0
    mo_occ := fun _ i => i.elim0 }

/-- The empty MO perturbation array over `scf0`. -/
def pert0 : MOPert scf0 := fun _ _ i _ => i.elim0

/-- The empty `mo_e1` array over `scf0`. -/
def moe0 : MOE1 scf0 := fun _ _ i _ => i.val.elim0

/-- A constant external environment over zero basis functions. -/
def ext0 : Ext 0 :=
  { get_dia_1e := fun _ _ _ _ _ _ => 0
    get_jk := fun _ _ _ _ _ _ _ _ _ i => i.elim0
    solve_mo1 := fun _ _ _ _ _ =>
      ⟨fun _ _ i _ => i.elim0, fun _ _ i _ => i.val.elim0⟩
    uhf_nmr_get_fock := fun _ _ _ _ i => i.elim0 }

/-- A trivial Fock-builder attribute over zero basis functions. -/
def gf0 : (Fin 2 → Mat 0) → Option Gauge → (Fin 2 → Fin 3 → Mat 0) :=
  fun _ _ _ _ i => i.elim0

/-- A trivial overlap-builder attribute over zero basis functions. -/
def go0 : Mole → Option Gauge → (Fin 3 → Mat 0) :=
  fun _ _ _ i => i.elim0

/-- Concrete instantiation of `mag_c8`: two objects differing only in the
logger fields yield the same `dia` and `para` tensors. -/
theorem mag_c8_witness :
    dia ext0 ⟨⟨0⟩, scf0, CphfArg.pynone, 0, 0, gf0, go0⟩ none =
      dia ext0 ⟨⟨0⟩, scf0, CphfArg.pynone, 1, 1, gf0, go0⟩ none ∧
    para ext0 ⟨⟨0⟩, scf0, CphfArg.pynone, 0, 0, gf0, go0⟩ none none none
        CphfArg.pynone =
      para ext0 ⟨⟨0⟩, scf0, CphfArg.pynone, 1, 1, gf0, go0⟩ none none none
        CphfArg.pynone :=
  mag_c8 ext0 ⟨0⟩ scf0 CphfArg.pynone gf0 go0 0 0 1 1 none none none
    CphfArg.pynone (fun _ _ _ _ _ _ _ => rfl) (fun _ _ _ _ _ _ _ => rfl)

/-- A fallible magnetizability object whose builders always raise. -/
def magF0 : MagObjE ℕ 0 :=
  { mol := ⟨0⟩, scf := scf0, cphf := CphfArg.pynone, stdout := 0, verbose := 0
    get_fock := fun _ _ => Except.error 3
    get_ovlp := fun _ _ => Except.error 4 }

/-- A fallible magnetizability object whose builders always succeed. -/
def magO0 : MagObjE ℕ 0 :=
  { mol := ⟨0⟩, scf := scf0, cphf := CphfArg.pynone, stdout := 0, verbose := 0
    get_fock := fun _ _ => Except.ok (fun _ _ i => i.elim0)
    get_ovlp := fun _ _ => Except.ok (fun _ i => i.elim0) }

/-- A fallible external environment whose routines always raise. -/
def extF0 : ExtE ℕ 0 :=
  { get_dia_1e := fun _ _ _ _ => Except.error 1
    get_jk := fun _ _ _ _ _ _ _ => Except.error 2
    solve_mo1 := fun _ _ _ _ _ => Except.error 5 }

/-- A fallible external environment whose routines succeed except for
`jk.get_jk`. -/
def extO0 : ExtE ℕ 0 :=
  { get_dia_1e := fun _ _ _ _ => Except.ok (fun _ _ => 0)
    get_jk := fun _ _ _ _ _ _ _ => Except.error 2
    solve_mo1 := fun _ _ _ _ _ =>
      Except.ok ⟨fun _ _ i _ => i.elim0, fun _ _ i _ => i.val.elim0⟩ }

/-- Concrete instantiation of `mag_c9`: each external failure propagates
unchanged through `dia` and `para`, and successful runs return `ok`. -/
theorem mag_c9_witness :
    diaE extF0 magF0 none = Except.error 1 ∧
    diaE extO0 magO0 none = Except.error 2 ∧
    paraE extF0 magF0 none none (some pert0) CphfArg.pynone =
      Except.error 3 ∧
    paraE extF0 magF0 none (some pert0) none CphfArg.pynone =
      Except.error 4 ∧
    paraE extF0 magF0 none (some pert0) (some pert0) CphfArg.pynone =
      Except.error 5 ∧
    diaE extO0 magO0 (some ⟨0, 0, 1⟩) =
      Except.ok (fun x y => -(ravel3 (fun _ _ => 0) (idx9 x y))) ∧
    paraE extO0 magO0 none (some pert0) (some pert0) CphfArg.pynone =
      Except.ok (fun x y =>
        -(mag_para_contract scf0 pert0 pert0 pert0 moe0 x y)) :=
  mag_c9 extF0 extO0 magF0 magO0 none ⟨0, 0, 1⟩ pert0 pert0 pert0 pert0
    CphfArg.pynone 1 2 3 4 5 (fun _ _ => 0) (fun _ _ => 0) ⟨pert0, moe0⟩
    rfl rfl rfl rfl rfl rfl rfl rfl

end PyscfMag
